import Mathlib

/-!
Verification development for the get-rds-credentials script
(src/get-rds-credentials.py).

The script is sequential glue around three external tools.  We embed it
shallowly: byte streams of the subprocesses appear, already decoded, as
String parameters; the filesystem and the process environment are explicit
values; every Python library function the script relies on (str.strip,
str.splitlines, str.split, os.path.join, os.path.exists, shlex.split,
shlex.quote, print) is embedded from its documented CPython semantics.
json.loads composed with the dictionary accesses is kept abstract as a
parameter parse : String -> Option Endpoint, since it is an external
library; a line is a "valid JSON object" for a run exactly when parse
returns some record for it.
-/

set_option maxHeartbeats 1000000
set_option maxRecDepth 4000

namespace GetRds

/-! ## Python string primitives -/

/-- Python str.isspace on one character: the Unicode whitespace set used by
CPython (0x09-0x0D, 0x1C-0x1F, space, NEL, NBSP, ogham, the 0x2000 block,
LS, PS, NNBSP, MMSP, ideographic space).  str.strip with no argument strips
exactly these characters from both ends. -/
def pyIsSpace (c : Char) : Bool :=
  let n := c.toNat
  (9 ≤ n && n ≤ 13) || (28 ≤ n && n ≤ 31) || n == 32 || n == 0x85 ||
    n == 0xA0 || n == 0x1680 || (0x2000 ≤ n && n ≤ 0x200A) ||
    n == 0x2028 || n == 0x2029 || n == 0x202F || n == 0x205F || n == 0x3000

/-- Character-list core of Python str.strip(): drop isspace characters from
the front, then from the back. -/
def pyStripList (l : List Char) : List Char :=
  ((l.dropWhile pyIsSpace).reverse.dropWhile pyIsSpace).reverse

/-- Python str.strip() with no argument. -/
def pyStrip (s : String) : String := String.mk (pyStripList s.data)

/-- Line-boundary characters of Python str.splitlines: LF, VT, FF, CR,
FS, GS, RS, NEL, LS, PS (CR LF counts as a single boundary). -/
def isLineBreak (c : Char) : Bool :=
  let n := c.toNat
  (10 ≤ n && n ≤ 13) || (28 ≤ n && n ≤ 30) || n == 0x85 ||
    n == 0x2028 || n == 0x2029

/-- Worker for Python str.splitlines: cur holds the current line reversed;
skipLF is set just after a CR so that a following LF is swallowed (CR LF is
one boundary).  A trailing segment is emitted only when nonempty, matching
CPython (no empty final line after a terminal boundary). -/
def splitlinesAux (l : List Char) (cur : List Char) (skipLF : Bool) :
    List (List Char) :=
  match l with
  | [] => if cur.isEmpty then [] else [cur.reverse]
  | c :: rest =>
    if skipLF && c == '\n' then splitlinesAux rest cur false
    else if c == '\r' then cur.reverse :: splitlinesAux rest [] true
    else if isLineBreak c then cur.reverse :: splitlinesAux rest [] false
    else splitlinesAux rest (c :: cur) false

/-- Python str.splitlines(). -/
def pySplitlines (s : String) : List String :=
  (splitlinesAux s.data [] false).map String.mk

/-- Worker for Python str.split with a one-character separator. -/
def pySplitAux (sep : Char) : List Char → List Char → List (List Char)
  | [], cur => [cur.reverse]
  | c :: rest, cur =>
    if c == sep then cur.reverse :: pySplitAux sep rest []
    else pySplitAux sep rest (c :: cur)

/-- Python str.split(sep) for a one-character separator sep: the empty
string yields one empty field, every separator occurrence opens a new
field.  os.environ of PATH is split this way with os.pathsep. -/
def pySplit (sep : Char) (s : String) : List String :=
  (pySplitAux sep s.data []).map String.mk

/-- Python-side join with a newline separator (the join method of the
one-character string LF), used both by the error message of
ensure_commands and to describe newline-separated subprocess output. -/
def joinNL : List String → String
  | [] => ""
  | [x] => x
  | x :: rest => x ++ "\n" ++ joinNL rest

/-- Character-list analogue of joinNL, used in proofs. -/
def joinNLC : List (List Char) → List Char
  | [] => []
  | [x] => x
  | x :: rest => x ++ '\n' :: joinNLC rest

/-- Character-level join of words, one trailing space after each word;
describes the shape of the formatted credentials command template, whose
every placeholder and literal word is followed by one space. -/
def joinSp : List (List Char) → List Char
  | [] => []
  | w :: rest => w ++ ' ' :: joinSp rest

/-- Python print(s) with default arguments: writes s plus one newline. -/
def pyPrint (s : String) : String := s ++ "\n"

/-- Python truthiness of an Optional string: None and the empty string are
falsy.  The script tests which(command) with "if not". -/
def pyFalsy : Option String → Bool
  | none => true
  | some s => s == ""

/-! ## shlex embedding (POSIX mode, as used by shlex.split) -/

/-- The word-splitting whitespace of the shlex lexer: space, tab, CR, LF. -/
def isShlexWs (c : Char) : Bool :=
  c == ' ' || c == '\t' || c == '\r' || c == '\n'

/-- A character that the POSIX shlex lexer copies into the current token
unchanged when met outside quotes: not whitespace, not a quote of either
kind, not the escape character backslash. -/
def shlexPlainChar (c : Char) : Bool :=
  !(isShlexWs c) && !(c == '\'') && !(c == '\"') && !(c == '\\')

/-- One-character-at-a-time worker for shlex.split in POSIX mode.
State: cur is the current token reversed; qs is the active quote character
if any; hasTok records whether a token has been opened (so that an empty
quoted string still yields an empty token); esc records a pending
backslash.  Outside quotes a backslash escapes any character; inside double
quotes it escapes only a double quote or a backslash and is otherwise kept
literally; inside single quotes nothing is special.  A dangling escape or
an unclosed quote is a lexing error (shlex raises ValueError): none. -/
def shlexGo (l : List Char) (cur : List Char) (qs : Option Char)
    (hasTok : Bool) (esc : Bool) (acc : List (List Char)) :
    Option (List (List Char)) :=
  match l with
  | [] =>
    if esc then none
    else match qs with
      | some _ => none
      | none => some ((if hasTok then cur.reverse :: acc else acc).reverse)
  | c :: rest =>
    if esc then
      match qs with
      | none => shlexGo rest (c :: cur) none true false acc
      | some q =>
        if c == '\"' || c == '\\' then shlexGo rest (c :: cur) (some q) true false acc
        else shlexGo rest (c :: '\\' :: cur) (some q) true false acc
    else match qs with
      | none =>
        if isShlexWs c then
          shlexGo rest [] none false false (if hasTok then cur.reverse :: acc else acc)
        else if c == '\'' || c == '\"' then shlexGo rest cur (some c) true false acc
        else if c == '\\' then shlexGo rest cur none hasTok true acc
        else shlexGo rest (c :: cur) none true false acc
      | some q =>
        if c == q then shlexGo rest cur none true false acc
        else if q == '\"' && c == '\\' then shlexGo rest cur (some q) true true acc
        else shlexGo rest (c :: cur) (some q) true false acc

/-- Python shlex.split(s) in its default POSIX mode, as the script applies
to every constructed command line before invoking a subprocess. -/
def shlexSplit (s : String) : Option (List String) :=
  (shlexGo s.data [] none false false []).map (List.map String.mk)

/-- The character class shlex.quote leaves unquoted: ASCII word characters
(the regular expression uses re.ASCII) and the punctuation set
at-percent-plus-equals-colon-comma-dot-slash-hyphen. -/
def shlexQuoteSafeChar (c : Char) : Bool :=
  (('a' ≤ c && c ≤ 'z') || ('A' ≤ c && c ≤ 'Z') || ('0' ≤ c && c ≤ '9') ||
    c == '_' || c == '@' || c == '%' || c == '+' || c == '=' || c == ':' ||
    c == ',' || c == '.' || c == '/' || c == '-')

/-- Python shlex.quote(s): empty becomes two single quotes; a string of
safe characters is returned unchanged; otherwise it is wrapped in single
quotes with every embedded single quote replaced by the
quote-doublequote-quote-doublequote-quote sequence. -/
def shlexQuote (s : String) : String :=
  if s == "" then String.mk ['\'', '\'']
  else if s.data.all shlexQuoteSafeChar then s
  else
    String.mk ('\'' :: (s.data.flatMap fun c =>
      if c == '\'' then ['\'', '\"', '\'', '\"', '\''] else [c]) ++ ['\''])

/-! ## Filesystem and environment model -/

/-- Kind of a filesystem entry: os.path.exists does not distinguish them,
which is why the distinction matters for the preflight check. -/
inductive FSKind where
  | file (executable : Bool) : FSKind
  | directory : FSKind
deriving DecidableEq, Repr

/-- One filesystem entry: an absolute-or-relative path and its kind. -/
structure FSEntry where
  path : String
  kind : FSKind
deriving DecidableEq, Repr

/-- The filesystem visible to one run, as the set of existing entries. -/
abbrev Filesystem := List FSEntry

/-- os.path.exists p on the modelled filesystem: some entry of any kind
has that path. -/
def osPathExists (fs : Filesystem) (p : String) : Bool :=
  fs.any fun e => e.path == p

/-- Test used by the POSIX os.path.join: does the component start with a
slash (making it absolute)? -/
def startsWithSlash (s : String) : Bool :=
  match s.data with
  | [] => false
  | c :: _ => c == '/'

/-- Test used by the POSIX os.path.join: does the base end with a slash? -/
def endsWithSlash (s : String) : Bool :=
  match s.data.getLast? with
  | some c => c == '/'
  | none => false

/-- POSIX os.path.join(path, b) for two components: an absolute second
component wins; otherwise a slash is inserted unless the base is empty or
already ends in one. -/
def osPathJoin (path b : String) : String :=
  if startsWithSlash b then b
  else if path == "" || endsWithSlash path then path ++ b
  else path ++ "/" ++ b

/-! ## The script itself -/

/-- The REQUIRED_COMMANDS dictionary of the script, in insertion order
(Python dictionaries iterate in insertion order). -/
def REQUIRED_COMMANDS : List (String × String) :=
  [("aws", "awscli is missing"), ("fzf", "fzf is missing"), ("jq", "jq is missing")]

/-- The loop of the function named which in the script: walk the PATH
entries in order, return the first join that exists on the filesystem. -/
def whichLoop (fs : Filesystem) (command : String) : List String → Option String
  | [] => none
  | path :: rest =>
    let full_path := osPathJoin path command
    if osPathExists fs full_path then some full_path
    else whichLoop fs command rest

/-- The function named which in the script, given the value of the PATH
variable: split PATH on the path separator and search in order.  (The
lru_cache decoration is modelled separately by whichCached.) -/
def which (fs : Filesystem) (pathVar : String) (command : String) : Option String :=
  whichLoop fs command (pySplit ':' pathVar)

/-- The memoization table functools.lru_cache maintains for which:
association list from command name to the cached result. -/
abbrev WhichCache := List (String × Option String)

/-- One call of the lru_cache-decorated which: a cache hit returns the
stored result without consulting filesystem or environment; a miss runs
the body against the state at call time and stores the result. -/
def whichCached (fs : Filesystem) (pathVar : String) (cache : WhichCache)
    (command : String) : Option String × WhichCache :=
  match cache.lookup command with
  | some r => (r, cache)
  | none =>
    let r := which fs pathVar command
    (r, (command, r) :: cache)

/-- The fallible entry to which: the body reads os.environ of PATH, which
raises KeyError when the variable is absent from the environment. -/
def whichRun (fs : Filesystem) (environ : List (String × String))
    (command : String) : Except String (Option String) :=
  match environ.lookup "PATH" with
  | none => Except.error "KeyError"
  | some pathVar => Except.ok (which fs pathVar command)

/-- The missing_commands list built by ensure_commands: the description of
every required command whose which result is falsy, in dictionary order. -/
def collectMissing (fs : Filesystem) (pathVar : String) :
    List (String × String) → List String
  | [] => []
  | (command, description) :: rest =>
    (if pyFalsy (which fs pathVar command) then [description] else []) ++
      collectMissing fs pathVar rest

/-- Observable result of ensure_commands: either it falls through with no
output, or it prints a message to stderr and exits with status 1. -/
inductive PreflightResult where
  | ok : PreflightResult
  | exit1 (stderrText : String) : PreflightResult
deriving DecidableEq, Repr

/-- The function ensure_commands of the script, given the PATH value: on
any missing command, print (with the trailing newline of print) the header
line followed by one description per missing command, then sys.exit(1). -/
def ensure_commands (fs : Filesystem) (pathVar : String) : PreflightResult :=
  let missing := collectMissing fs pathVar REQUIRED_COMMANDS
  if missing.isEmpty then PreflightResult.ok
  else
    PreflightResult.exit1
      (pyPrint ("You must install a set of commands for this script to work.\n" ++
        joinNL missing))

/-- An endpoint record: the two fields of the JSON objects the discovery
pipeline emits that the script reads (instance of Address, instance of
Port).  Port is the JSON integer, printed by str.format with str. -/
structure Endpoint where
  Address : String
  Port : Nat
deriving DecidableEq, Repr

/-- Map json.loads over the lines of the discovery output; any line on
which the parser fails raises an uncaught JSONDecodeError, modelled as
none for the whole list (list(...) forces the generator). -/
def parseAll (parse : String → Option Endpoint) :
    List String → Option (List Endpoint)
  | [] => some []
  | line :: rest =>
    match parse line with
    | none => none
    | some e => (parseAll parse rest).map (e :: ·)

/-- The function get_instances of the script, applied to the decoded
output of the discovery subprocess: split into lines, parse each line. -/
def get_instances (parse : String → Option Endpoint) (output : String) :
    Option (List Endpoint) :=
  parseAll parse (pySplitlines output)

/-- The function choose_instances of the script, given the decoded output
the picker subprocess produced: first component is the list of lines
written to the picker's stdin (one Address plus newline per record, in
order), second is the returned selection, the picker output stripped. -/
def choose_instances (instances : List Endpoint) (pickerOutput : String) :
    List String × String :=
  (instances.map fun i => i.Address ++ "\n", pyStrip pickerOutput)

/-- The destructuring lookup in main: the comprehension filters the
discovered records on Address equality with the selection, and the
unpacking takes the head, raising an uncaught ValueError when the filtered
list is empty (none). -/
def lookup_instance (instances : List Endpoint) (instance_name : String) :
    Option Endpoint :=
  match instances.filter (fun i => i.Address == instance_name) with
  | [] => none
  | i :: _ => some i

/-- The GET_CREDENTIALS_COMMAND template applied by str.format in
print_credentials: the aws path (already shlex-quoted), the record's
Address and Port and the username are interpolated verbatim, the region is
fixed, and the template ends with a space. -/
def credentialsCommand (aws hostname : String) (port : Nat) (username : String) :
    String :=
  aws ++ " rds generate-db-auth-token --hostname " ++ hostname ++ " --port " ++
    toString port ++ " --username " ++ username ++ " --region eu-central-1 "

/-- What print_credentials writes to stdout given the decoded output of
the token subprocess (which exited with status zero, so check_output
returned): print of the decoded output, that is the output plus one
newline. -/
def print_credentials_stdout (tokenOutput : String) : String :=
  pyPrint tokenOutput

/-- A subprocess invocation of one run, in order: the discovery pipeline,
the picker with the lines written to its stdin, the token command with its
argument vector after shlex.split. -/
inductive Proc where
  | discovery : Proc
  | picker (stdinLines : List String) : Proc
  | token (argv : List String) : Proc
deriving DecidableEq, Repr

/-- Observable outcome of one run: normal termination with the given
stdout text, sys.exit with a code and stderr text, or an uncaught
exception (named by its Python class). -/
inductive Outcome where
  | success (stdout : String) : Outcome
  | exited (code : Nat) (stderrText : String) : Outcome
  | unhandled (exc : String) : Outcome
deriving DecidableEq, Repr

/-- Everything one run of main consumes from the outside world: the
filesystem, the environment, the JSON parser, and the decoded outputs of
the three subprocesses (each assumed to exit with status zero when it is
reached; a nonzero exit would raise CalledProcessError, outside the claims
below). -/
structure RunInput where
  fs : Filesystem
  environ : List (String × String)
  parse : String → Option Endpoint
  discoveryOutput : String
  pickerOutput : String
  tokenOutput : String

/-- The function main of the script (after the argv check): preflight,
discovery, selection, lookup, token printing, with the subprocess trace.
The PATH lookup is hoisted: in the script it happens inside the first
which call, and its KeyError propagates out of ensure_commands before any
output or subprocess; the None arm for the aws path in the last stage
mirrors shlex.quote raising TypeError on None, unreachable once the
preflight has passed. -/
def main_run (inp : RunInput) (username : String) : Outcome × List Proc :=
  match inp.environ.lookup "PATH" with
  | none => (Outcome.unhandled "KeyError", [])
  | some pathVar =>
    match ensure_commands inp.fs pathVar with
    | PreflightResult.exit1 msg => (Outcome.exited 1 msg, [])
    | PreflightResult.ok =>
      match get_instances inp.parse inp.discoveryOutput with
      | none => (Outcome.unhandled "JSONDecodeError", [Proc.discovery])
      | some instances =>
        let stdinLines := (choose_instances instances inp.pickerOutput).1
        let instance_name := (choose_instances instances inp.pickerOutput).2
        match lookup_instance instances instance_name with
        | none =>
          (Outcome.unhandled "ValueError", [Proc.discovery, Proc.picker stdinLines])
        | some inst =>
          match which inp.fs pathVar "aws" with
          | none =>
            (Outcome.unhandled "TypeError", [Proc.discovery, Proc.picker stdinLines])
          | some awsPath =>
            match shlexSplit
                (credentialsCommand (shlexQuote awsPath) inst.Address inst.Port
                  username) with
            | none =>
              (Outcome.unhandled "ValueError",
                [Proc.discovery, Proc.picker stdinLines])
            | some argv =>
              (Outcome.success (print_credentials_stdout inp.tokenOutput),
                [Proc.discovery, Proc.picker stdinLines, Proc.token argv])

/-! ## Concrete worlds used by the witnesses -/

/-- Parser of a one-record world: the single discovery line maps to one
endpoint record. -/
def parseOne : String → Option Endpoint :=
  fun s => if s = "L1" then some ⟨"db2.example.com", 5432⟩ else none

/-- A world in which every tool is an executable file on PATH and all three
subprocesses behave: one discovered record, the operator picks it. -/
def happyInput : RunInput :=
  ⟨[⟨"/bin/aws", FSKind.file true⟩, ⟨"/bin/fzf", FSKind.file true⟩,
      ⟨"/bin/jq", FSKind.file true⟩],
    [("PATH", "/bin")], parseOne, "L1", "db2.example.com\n", "TOKEN"⟩

/-- A world with an empty filesystem: no tool resolves. -/
def missingInput : RunInput :=
  ⟨[], [("PATH", "/x")], fun _ => none, "", "", ""⟩

/-- A world in which the tools exist but discovery returns nothing and the
operator cancels the picker (empty picker output). -/
def cancelInput : RunInput :=
  ⟨[⟨"/bin/aws", FSKind.file true⟩, ⟨"/bin/fzf", FSKind.file true⟩,
      ⟨"/bin/jq", FSKind.file true⟩],
    [("PATH", "/bin")], fun _ => none, "", "", ""⟩

/-- A filesystem on which the three required names exist only as
directories. -/
def dirOnlyFs : Filesystem :=
  [⟨"/opt/aws", FSKind.directory⟩, ⟨"/opt/fzf", FSKind.directory⟩,
    ⟨"/opt/jq", FSKind.directory⟩]

/-! ## Helper lemmas -/

/-- The lookup in main is the first discovered record whose Address equals
the selection. -/
theorem lookup_instance_eq_find (instances : List Endpoint) (name : String) :
    lookup_instance instances name =
      instances.find? (fun i => i.Address == name) := by
  induction instances with
  | nil => rfl
  | cons a t ih =>
    by_cases hp : (a.Address == name) = true
    · simp [lookup_instance, List.filter_cons, hp, List.find?]
    · have hp' : (a.Address == name) = false := by simpa using hp
      simp only [lookup_instance, List.filter_cons, hp', Bool.false_eq_true, ite_false]
      rw [List.find?, hp']
      exact ih

/-- A string is empty exactly when its character list is. -/
theorem str_eq_empty_iff (s : String) : s = "" ↔ s.data = [] := by
  cases s with
  | mk l =>
    constructor
    · intro h
      exact congrArg String.data h
    · intro h
      show String.mk l = ""
      rw [show l = [] from h]

/-- Rebuilding a string from its character list is the identity. -/
theorem str_mk_data (s : String) : String.mk s.data = s := by
  cases s
  rfl

/-- Joining a nonempty component onto a base never yields the empty
path. -/
theorem osPathJoin_ne_empty (path b : String) (hb : b ≠ "") :
    osPathJoin path b ≠ "" := by
  have hbd : b.data ≠ [] := fun h => hb ((str_eq_empty_iff b).mpr h)
  unfold osPathJoin
  split
  · exact hb
  · split <;>
    · intro h
      have h1 := (str_eq_empty_iff _).mp h
      rw [String.data_append] at h1
      rcases List.append_eq_nil.mp h1 with ⟨-, h2⟩
      exact hbd h2

/-- The which loop returns the join for the first PATH entry whose join
exists on the filesystem. -/
theorem whichLoop_eq_find (fs : Filesystem) (command : String)
    (ps : List String) :
    whichLoop fs command ps =
      (ps.find? (fun d => osPathExists fs (osPathJoin d command))).map
        (fun d => osPathJoin d command) := by
  induction ps with
  | nil => rfl
  | cons p t ih =>
    by_cases hp : osPathExists fs (osPathJoin p command) <;>
      simp [whichLoop, List.find?, hp, ih]

/-- A successful resolution is the join of some PATH entry with the
command name. -/
theorem which_some_shape (fs : Filesystem) (pathVar command full : String)
    (h : which fs pathVar command = some full) :
    ∃ d, d ∈ pySplit ':' pathVar ∧ full = osPathJoin d command := by
  unfold which at h
  rw [whichLoop_eq_find] at h
  rcases Option.map_eq_some'.mp h with ⟨d, hfind, hfull⟩
  exact ⟨d, List.mem_of_find?_eq_some hfind, hfull.symm⟩

/-! ## Claim theorems -/

/-- Claim C6: for every command name and every value of the PATH variable,
which returns the join of the first PATH directory (in listed order)
containing an entry of that name with the name itself, and none when no
listed directory contains such an entry; both directions are captured by
the find?-characterisation over the split PATH list. -/
theorem C6_path_resolution (fs : Filesystem) (pathVar command : String) :
    which fs pathVar command =
      ((pySplit ':' pathVar).find?
          (fun d => osPathExists fs (osPathJoin d command))).map
        (fun d => osPathJoin d command) :=
  whichLoop_eq_find fs command (pySplit ':' pathVar)

/-- Claim C7: the lru_cache memoization makes resolution idempotent within
one run: a second call for the same command name returns the first call's
result even if the filesystem or the PATH variable changed in between. -/
theorem C7_resolution_idempotent (fs₁ fs₂ : Filesystem) (pv₁ pv₂ : String)
    (cache : WhichCache) (command : String) :
    (whichCached fs₂ pv₂ (whichCached fs₁ pv₁ cache command).2 command).1 =
      (whichCached fs₁ pv₁ cache command).1 := by
  unfold whichCached
  cases h : cache.lookup command with
  | some r => simp [h]
  | none => simp [h, List.lookup]

/-- Claim C9: with PATH absent from the environment, the body of which
raises KeyError on its first call, and the whole run terminates with that
unhandled error, with no subprocess invoked and no clean exit-1 report. -/
theorem C9_unset_path_keyerror (inp : RunInput) (username command : String)
    (h : inp.environ.lookup "PATH" = none) :
    whichRun inp.fs inp.environ command = Except.error "KeyError" ∧
    main_run inp username = (Outcome.unhandled "KeyError", []) := by
  constructor
  · simp [whichRun, h]
  · simp [main_run, h]

/-- Witness for C9 at the empty environment. -/
theorem C9_witness :
    whichRun missingInput.fs [] "aws" = Except.error "KeyError" ∧
    main_run ⟨missingInput.fs, [], missingInput.parse, "", "", ""⟩ "u" =
      (Outcome.unhandled "KeyError", []) :=
  C9_unset_path_keyerror ⟨missingInput.fs, [], missingInput.parse, "", "", ""⟩
    "u" "aws" rfl

/-- Claim C3: whenever a run terminates normally, what was printed to
standard output is exactly the token subprocess output followed by one
newline and nothing else (print_credentials prints the decoded output with
print, which appends the newline). -/
theorem C3_token_printed_verbatim (inp : RunInput) (username stdout : String)
    (procs : List Proc)
    (h : main_run inp username = (Outcome.success stdout, procs)) :
    stdout = inp.tokenOutput ++ "\n" ∧
    print_credentials_stdout inp.tokenOutput = inp.tokenOutput ++ "\n" := by
  refine ⟨?_, rfl⟩
  unfold main_run at h
  cases hP : inp.environ.lookup "PATH" with
  | none => rw [hP] at h; simp at h
  | some pv =>
    simp only [hP] at h
    cases hE : ensure_commands inp.fs pv with
    | exit1 msg => simp only [hE] at h; simp at h
    | ok =>
      simp only [hE] at h
      cases hG : get_instances inp.parse inp.discoveryOutput with
      | none => simp only [hG] at h; simp at h
      | some instances =>
        simp only [hG] at h
        cases hL : lookup_instance instances
            (choose_instances instances inp.pickerOutput).2 with
        | none => simp only [hL] at h; simp at h
        | some inst =>
          simp only [hL] at h
          cases hW : which inp.fs pv "aws" with
          | none => simp only [hW] at h; simp at h
          | some awsPath =>
            simp only [hW] at h
            cases hS : shlexSplit
                (credentialsCommand (shlexQuote awsPath) inst.Address inst.Port
                  username) with
            | none => simp only [hS] at h; simp at h
            | some argv =>
              simp only [hS] at h
              simp only [print_credentials_stdout, pyPrint, Prod.mk.injEq,
                Outcome.success.injEq] at h
              exact h.1.symm

/-- Witness for C3: a complete successful run in the happy world. -/
theorem C3_witness :
    ("TOKEN\n" : String) = "TOKEN" ++ "\n" ∧
    print_credentials_stdout "TOKEN" = "TOKEN" ++ "\n" :=
  C3_token_printed_verbatim happyInput "alice" "TOKEN\n"
    [Proc.discovery, Proc.picker ["db2.example.com\n"],
      Proc.token ["/bin/aws", "rds", "generate-db-auth-token", "--hostname",
        "db2.example.com", "--port", "5432", "--username", "alice",
        "--region", "eu-central-1"]]
    (by decide)

/-- Claim C1: the lookup returns a record iff some discovered record's
Address equals the selected string; when one does, the result is the first
match in discovery order (the find? characterisation) and its Address
equals the selection; and a run whose selection matches no record (the
cancellation case included) terminates with the unhandled ValueError of
the destructuring assignment. -/
theorem C1_lookup_raises_iff (instances : List Endpoint) (name : String) :
    lookup_instance instances name =
      instances.find? (fun i => i.Address == name) ∧
    ((lookup_instance instances name).isSome ↔
      ∃ i ∈ instances, i.Address = name) ∧
    (∀ i, lookup_instance instances name = some i → i.Address = name) ∧
    (∀ (inp : RunInput) (username pathVar : String)
        (instancesRun : List Endpoint),
      inp.environ.lookup "PATH" = some pathVar →
      ensure_commands inp.fs pathVar = PreflightResult.ok →
      get_instances inp.parse inp.discoveryOutput = some instancesRun →
      (¬ ∃ i ∈ instancesRun, i.Address = pyStrip inp.pickerOutput) →
      (main_run inp username).1 = Outcome.unhandled "ValueError") := by
  have hiff : ∀ (l : List Endpoint) (n : String),
      (lookup_instance l n).isSome ↔ ∃ i ∈ l, i.Address = n := by
    intro l n
    rw [lookup_instance_eq_find]
    simp [List.find?_isSome]
  refine ⟨lookup_instance_eq_find instances name, hiff instances name, ?_, ?_⟩
  · intro i h
    rw [lookup_instance_eq_find] at h
    simpa using List.find?_some h
  · intro inp username pathVar instancesRun hP hE hG hno
    have hnone : lookup_instance instancesRun (pyStrip inp.pickerOutput) = none := by
      rcases hs : lookup_instance instancesRun (pyStrip inp.pickerOutput) with _ | i
      · rfl
      · exact absurd ((hiff instancesRun (pyStrip inp.pickerOutput)).mp
          (by rw [hs]; rfl)) hno
    unfold main_run
    simp only [hP, hE, hG, choose_instances, hnone]

/-- Witness for C1: the cancellation run (empty discovery, empty picker
output) dies with the unhandled ValueError. -/
theorem C1_witness :
    (main_run cancelInput "u").1 = Outcome.unhandled "ValueError" :=
  (C1_lookup_raises_iff [] "").2.2.2 cancelInput "u" "/bin" [] rfl (by decide)
    rfl (by simp)

/-- Claim C4: when none of the three required tools resolves, the run
prints the header plus one description line per missing tool (all three)
to stderr, exits with code 1, and invokes no subprocess; when all three
resolve, the preflight check falls through without output or exit. -/
theorem C4_preflight (inp : RunInput) (pathVar username : String)
    (hP : inp.environ.lookup "PATH" = some pathVar) :
    ((∀ c ∈ ["aws", "fzf", "jq"], pyFalsy (which inp.fs pathVar c) = true) →
      main_run inp username =
        (Outcome.exited 1
          (pyPrint
            ("You must install a set of commands for this script to work.\n" ++
              "awscli is missing\nfzf is missing\njq is missing")), [])) ∧
    ((∀ c ∈ ["aws", "fzf", "jq"], pyFalsy (which inp.fs pathVar c) = false) →
      ensure_commands inp.fs pathVar = PreflightResult.ok) := by
  constructor
  · intro h
    have ha := h "aws" (by simp)
    have hf := h "fzf" (by simp)
    have hj := h "jq" (by simp)
    have hE : ensure_commands inp.fs pathVar =
        PreflightResult.exit1
          (pyPrint
            ("You must install a set of commands for this script to work.\n" ++
              "awscli is missing\nfzf is missing\njq is missing")) := by
      simp [ensure_commands, collectMissing, REQUIRED_COMMANDS, ha, hf, hj, joinNL]
    unfold main_run
    simp only [hP, hE]
  · intro h
    have ha := h "aws" (by simp)
    have hf := h "fzf" (by simp)
    have hj := h "jq" (by simp)
    simp [ensure_commands, collectMissing, REQUIRED_COMMANDS, ha, hf, hj]

/-- Witness for C4 in the world with an empty filesystem: all three tools
missing, exit code 1, empty subprocess trace. -/
theorem C4_witness :
    main_run missingInput "u" =
      (Outcome.exited 1
        (pyPrint
          ("You must install a set of commands for this script to work.\n" ++
            "awscli is missing\nfzf is missing\njq is missing")), []) :=
  (C4_preflight missingInput "/x" "u" rfl).1 (by decide)

/-- Claim C8: resolution tests bare existence, never file kind or
executability: a directory entry named after the command satisfies it, and
when each required name exists merely as a directory somewhere on PATH the
preflight check passes. -/
theorem C8_exists_not_executable (fs : Filesystem) (pathVar : String) :
    (∀ (command d : String), d ∈ pySplit ':' pathVar →
      (∃ e ∈ fs, e.path = osPathJoin d command ∧ e.kind = FSKind.directory) →
      (which fs pathVar command).isSome = true) ∧
    ((∀ c ∈ ["aws", "fzf", "jq"], ∃ d ∈ pySplit ':' pathVar, ∃ e ∈ fs,
        e.path = osPathJoin d c ∧ e.kind = FSKind.directory) →
      ensure_commands fs pathVar = PreflightResult.ok) := by
  have hsome : ∀ (command d : String), d ∈ pySplit ':' pathVar →
      (∃ e ∈ fs, e.path = osPathJoin d command ∧ e.kind = FSKind.directory) →
      (which fs pathVar command).isSome = true := by
    intro command d hd hex
    obtain ⟨e, he, hpath, -⟩ := hex
    unfold which
    rw [whichLoop_eq_find]
    have hfs : (List.find? (fun d => osPathExists fs (osPathJoin d command))
        (pySplit ':' pathVar)).isSome = true := by
      apply List.find?_isSome.mpr
      refine ⟨d, hd, ?_⟩
      unfold osPathExists
      apply List.any_eq_true.mpr
      exact ⟨e, he, by simp [hpath]⟩
    rcases Option.isSome_iff_exists.mp hfs with ⟨d0, hd0⟩
    rw [hd0]
    rfl
  refine ⟨hsome, ?_⟩
  intro h
  have hfalse : ∀ c, c ∈ (["aws", "fzf", "jq"] : List String) → c ≠ "" →
      pyFalsy (which fs pathVar c) = false := by
    intro c hc hcne
    rcases h c hc with ⟨d, hd, he⟩
    have := hsome c d hd he
    rcases hw : which fs pathVar c with _ | full
    · rw [hw] at this; simp at this
    · have hfull : full ≠ "" := by
        have hchar := which_some_shape fs pathVar c full hw
        rcases hchar with ⟨d', -, rfl⟩
        exact osPathJoin_ne_empty d' c hcne
      simp [pyFalsy, hfull]
  have ha := hfalse "aws" (by simp) (by decide)
  have hf := hfalse "fzf" (by simp) (by decide)
  have hj := hfalse "jq" (by simp) (by decide)
  simp [ensure_commands, collectMissing, REQUIRED_COMMANDS, ha, hf, hj]

/-- Witness for C8: three directory-only entries satisfy the preflight. -/
theorem C8_witness :
    ensure_commands dirOnlyFs "/opt" = PreflightResult.ok :=
  (C8_exists_not_executable dirOnlyFs "/opt").2 (by decide)

/-- The head of a dropWhile result never satisfies the predicate. -/
theorem head?_dropWhile_not {α} (p : α → Bool) (l : List α) :
    ∀ c, (l.dropWhile p).head? = some c → p c = false := by
  induction l with
  | nil =>
    intro c h
    simp [List.dropWhile] at h
  | cons a t ih =>
    intro c h
    by_cases hp : p a
    · rw [show (a :: t).dropWhile p = t.dropWhile p by simp [List.dropWhile, hp]] at h
      exact ih c h
    · rw [show (a :: t).dropWhile p = a :: t by simp [List.dropWhile, hp]] at h
      cases h
      simpa using hp

/-- When dropWhile leaves anything, it leaves the tail end intact. -/
theorem getLast?_dropWhile {α} (p : α → Bool) (l : List α) :
    l.dropWhile p ≠ [] → (l.dropWhile p).getLast? = l.getLast? := by
  induction l with
  | nil =>
    intro h
    simp at h
  | cons a t ih =>
    intro h
    by_cases hp : p a
    · have hd : (a :: t).dropWhile p = t.dropWhile p := by simp [List.dropWhile, hp]
      rw [hd] at h ⊢
      cases t with
      | nil => simp at h
      | cons b t2 =>
        rw [List.getLast?_cons_cons]
        exact ih h
    · rw [show (a :: t).dropWhile p = a :: t by simp [List.dropWhile, hp]]

/-- Claim C2 (amended): the selection step returns the picker output
stripped on both ends: the output decomposes as whitespace, the returned
text, whitespace, the returned text neither starts nor ends with
whitespace, and all-whitespace (or empty) output yields the empty
string. -/
theorem C2_selection_stripped (instances : List Endpoint) (out : String) :
    (∃ lead trail : List Char, lead.all pyIsSpace = true ∧
      trail.all pyIsSpace = true ∧
      out.data = lead ++ ((choose_instances instances out).2).data ++ trail) ∧
    ((choose_instances instances out).2).data.head?.all
      (fun c => !pyIsSpace c) = true ∧
    ((choose_instances instances out).2).data.getLast?.all
      (fun c => !pyIsSpace c) = true ∧
    (out.data.all pyIsSpace = true → (choose_instances instances out).2 = "") := by
  have hres : ((choose_instances instances out).2).data = pyStripList out.data := rfl
  refine ⟨?_, ?_, ?_, ?_⟩
  · refine ⟨out.data.takeWhile pyIsSpace,
      (((out.data.dropWhile pyIsSpace).reverse.takeWhile pyIsSpace)).reverse,
      List.all_takeWhile, ?_, ?_⟩
    · rw [List.all_reverse]
      exact List.all_takeWhile
    · rw [hres]
      unfold pyStripList
      conv_lhs => rw [← List.takeWhile_append_dropWhile (p := pyIsSpace) (l := out.data)]
      rw [List.append_assoc]
      congr 1
      conv_lhs => rw [← List.reverse_reverse (out.data.dropWhile pyIsSpace)]
      conv_lhs =>
        rw [← List.takeWhile_append_dropWhile (p := pyIsSpace)
          (l := (out.data.dropWhile pyIsSpace).reverse)]
      rw [List.reverse_append]
  · rw [hres]
    unfold pyStripList
    rw [List.head?_reverse]
    cases hdw : (out.data.dropWhile pyIsSpace).reverse.dropWhile pyIsSpace with
    | nil => rfl
    | cons b t2 =>
      rw [← hdw, getLast?_dropWhile pyIsSpace _ (by rw [hdw]; exact List.cons_ne_nil b t2)]
      rw [List.getLast?_reverse]
      cases hy : (out.data.dropWhile pyIsSpace).head? with
      | none =>
        rw [List.head?_eq_none_iff] at hy
        rw [hy] at hdw
        simp at hdw
      | some c =>
        have := head?_dropWhile_not pyIsSpace out.data c hy
        simp [this]
  · rw [hres]
    unfold pyStripList
    rw [List.getLast?_reverse]
    cases hdw : (out.data.dropWhile pyIsSpace).reverse.dropWhile pyIsSpace with
    | nil => rfl
    | cons b t2 =>
      have := head?_dropWhile_not pyIsSpace (out.data.dropWhile pyIsSpace).reverse b
        (by rw [hdw]; rfl)
      simp [this]
  · intro hall
    have h1 : out.data.dropWhile pyIsSpace = [] :=
      List.dropWhile_eq_nil_iff.mpr fun x hx => (List.all_eq_true.mp hall) x hx
    show pyStrip out = ""
    unfold pyStrip pyStripList
    rw [h1]
    rfl

/-- Witness for C2 at a concrete picker output with whitespace on both
ends. -/
theorem C2_witness :
    (∃ lead trail : List Char, lead.all pyIsSpace = true ∧
      trail.all pyIsSpace = true ∧
      (" a " : String).data = lead ++ ((choose_instances [] " a ").2).data ++ trail) ∧
    ((choose_instances [] " a ").2).data.head?.all
      (fun c => !pyIsSpace c) = true ∧
    ((choose_instances [] " a ").2).data.getLast?.all
      (fun c => !pyIsSpace c) = true ∧
    ((" a " : String).data.all pyIsSpace = true → (choose_instances [] " a ").2 = "") :=
  C2_selection_stripped [] " a "

/-- Counterexample to C2 as stated: on picker output consisting of a
space, the letter x and a newline, the code returns x with the leading
space removed as well, not the claimed text with only trailing whitespace
trimmed. -/
theorem C2_counterexample :
    (choose_instances [] " x\n").2 = "x" ∧ ("x" : String) ≠ " x" := by
  constructor
  · rfl
  · decide

/-- splitlines passes over boundary-free characters, accumulating them
into the current line. -/
theorem splitlines_consume (l : List Char)
    (h : l.all (fun c => !isLineBreak c) = true) :
    ∀ (rest cur : List Char),
      splitlinesAux (l ++ rest) cur false =
        splitlinesAux rest (l.reverse ++ cur) false := by
  induction l with
  | nil =>
    intro rest cur
    simp
  | cons c t ih =>
    intro rest cur
    simp only [List.all_cons, Bool.and_eq_true] at h
    obtain ⟨hc, ht⟩ := h
    have hcb : isLineBreak c = false := by simpa using hc
    have hcr : (c == '\r') = false := by
      by_cases hc2 : c = '\r'
      · subst hc2
        exact absurd hcb (by decide)
      · simp [hc2]
    show splitlinesAux (c :: (t ++ rest)) cur false = _
    rw [show splitlinesAux (c :: (t ++ rest)) cur false =
        splitlinesAux (t ++ rest) (c :: cur) false by
      simp [splitlinesAux, hcr, hcb]]
    rw [ih ht rest (c :: cur)]
    simp [List.append_assoc]

/-- splitlines applied to a newline join of boundary-free nonempty lines
recovers exactly those lines. -/
theorem splitlines_join (ls : List (List Char))
    (h : ∀ l ∈ ls, l ≠ [] ∧ l.all (fun c => !isLineBreak c) = true) :
    splitlinesAux (joinNLC ls) [] false = ls := by
  induction ls with
  | nil => rfl
  | cons l rest ih =>
    obtain ⟨hne, hall⟩ := h l (List.mem_cons_self l rest)
    cases rest with
    | nil =>
      show splitlinesAux (joinNLC [l]) [] false = [l]
      rw [show joinNLC [l] = l from rfl]
      calc splitlinesAux l [] false
          = splitlinesAux (l ++ []) [] false := by rw [List.append_nil]
        _ = splitlinesAux [] (l.reverse ++ []) false :=
            splitlines_consume l hall [] []
        _ = [l] := by
            have hrev : (l.reverse ++ []).isEmpty = false := by
              simp [List.isEmpty_iff, hne]
            simp [splitlinesAux, hrev, hne]
    | cons l2 rest2 =>
      show splitlinesAux (joinNLC (l :: l2 :: rest2)) [] false = l :: l2 :: rest2
      rw [show joinNLC (l :: l2 :: rest2) = l ++ '\n' :: joinNLC (l2 :: rest2)
        from rfl]
      rw [splitlines_consume l hall ('\n' :: joinNLC (l2 :: rest2)) []]
      rw [show splitlinesAux ('\n' :: joinNLC (l2 :: rest2)) (l.reverse ++ []) false =
          (l.reverse ++ []).reverse :: splitlinesAux (joinNLC (l2 :: rest2)) [] false by
        simp [splitlinesAux, isLineBreak]]
      rw [ih (fun m hm => h m (List.mem_cons_of_mem l hm))]
      simp

/-- The data of a newline join is the character-level newline join. -/
theorem joinNL_data (ls : List String) :
    (joinNL ls).data = joinNLC (ls.map String.data) := by
  induction ls with
  | nil => rfl
  | cons x rest ih =>
    cases rest with
    | nil => rfl
    | cons y rest2 =>
      show (x ++ "\n" ++ joinNL (y :: rest2)).data =
        x.data ++ '\n' :: joinNLC ((y :: rest2).map String.data)
      rw [String.data_append, String.data_append, ih]
      simp

/-- parseAll succeeds linewise on a Forall₂-related line and record
list. -/
theorem parseAll_forall (parse : String → Option Endpoint)
    (lines : List String) (records : List Endpoint)
    (h : List.Forall₂ (fun l r => parse l = some r) lines records) :
    parseAll parse lines = some records := by
  induction h with
  | nil => rfl
  | cons hlr hrest ih => simp [parseAll, hlr, ih]

/-- Claim C5: an N-line discovery output of boundary-free nonempty lines,
each parsed by the JSON parser, yields exactly N records in line order,
and the picker stdin is exactly one Address-plus-newline line per record
in that same order. -/
theorem C5_discovery_to_picker_order (parse : String → Option Endpoint)
    (lines : List String) (records : List Endpoint) (pickerOutput : String)
    (hne : ∀ l ∈ lines, l ≠ "")
    (hnb : ∀ l ∈ lines, l.data.all (fun c => !isLineBreak c) = true)
    (hp : List.Forall₂ (fun l r => parse l = some r) lines records) :
    get_instances parse (joinNL lines) = some records ∧
    records.length = lines.length ∧
    (choose_instances records pickerOutput).1 =
      records.map (fun r => r.Address ++ "\n") := by
  have hsplit : pySplitlines (joinNL lines) = lines := by
    unfold pySplitlines
    rw [joinNL_data, splitlines_join]
    · rw [List.map_map]
      rw [show (String.mk ∘ String.data) = id from funext fun s => str_mk_data s]
      exact List.map_id lines
    · intro l hl
      rcases List.mem_map.mp hl with ⟨s, hs, rfl⟩
      exact ⟨fun hnil => (hne s hs) ((str_eq_empty_iff s).mpr hnil), hnb s hs⟩
  refine ⟨?_, (List.Forall₂.length_eq hp).symm, rfl⟩
  unfold get_instances
  rw [hsplit]
  exact parseAll_forall parse lines records hp

/-- Witness for C5 on a one-line discovery output. -/
theorem C5_witness :
    get_instances parseOne (joinNL ["L1"]) = some [⟨"db2.example.com", 5432⟩] ∧
    ([⟨"db2.example.com", 5432⟩] : List Endpoint).length =
      (["L1"] : List String).length ∧
    (choose_instances [⟨"db2.example.com", 5432⟩] "").1 =
      ([⟨"db2.example.com", 5432⟩] : List Endpoint).map
        (fun r => r.Address ++ "\n") :=
  C5_discovery_to_picker_order parseOne ["L1"] [⟨"db2.example.com", 5432⟩] ""
    (by decide) (by decide) (List.Forall₂.cons (by decide) List.Forall₂.nil)

/-- The shlex lexer copies a run of plain characters into the current
token. -/
theorem shlexGo_plain_consume (ts : List Char)
    (h : ts.all shlexPlainChar = true) :
    ∀ (rest cur : List Char) (acc : List (List Char)),
      shlexGo (ts ++ rest) cur none true false acc =
        shlexGo rest (ts.reverse ++ cur) none true false acc := by
  induction ts with
  | nil =>
    intro rest cur acc
    simp
  | cons c t ih =>
    intro rest cur acc
    simp only [List.all_cons, Bool.and_eq_true] at h
    obtain ⟨hc, ht⟩ := h
    simp only [shlexPlainChar, Bool.and_eq_true, Bool.not_eq_true'] at hc
    obtain ⟨⟨⟨hws, hq1⟩, hq2⟩, hbs⟩ := hc
    show shlexGo (c :: (t ++ rest)) cur none true false acc = _
    rw [show shlexGo (c :: (t ++ rest)) cur none true false acc =
        shlexGo (t ++ rest) (c :: cur) none true false acc by
      simp [shlexGo, hws, hq1, hq2, hbs]]
    rw [ih ht rest (c :: cur) acc]
    simp [List.append_assoc]

/-- One nonempty plain word followed by a space is lexed as one finished
token. -/
theorem shlexGo_token (w : List Char) (hne : w ≠ [])
    (hall : w.all shlexPlainChar = true) :
    ∀ (rest : List Char) (acc : List (List Char)),
      shlexGo (w ++ ' ' :: rest) [] none false false acc =
        shlexGo rest [] none false false (w :: acc) := by
  cases w with
  | nil => exact absurd rfl hne
  | cons c t =>
    intro rest acc
    simp only [List.all_cons, Bool.and_eq_true] at hall
    obtain ⟨hc, ht⟩ := hall
    simp only [shlexPlainChar, Bool.and_eq_true, Bool.not_eq_true'] at hc
    obtain ⟨⟨⟨hws, hq1⟩, hq2⟩, hbs⟩ := hc
    show shlexGo (c :: (t ++ ' ' :: rest)) [] none false false acc = _
    rw [show shlexGo (c :: (t ++ ' ' :: rest)) [] none false false acc =
        shlexGo (t ++ ' ' :: rest) [c] none true false acc by
      simp [shlexGo, hws, hq1, hq2, hbs]]
    rw [shlexGo_plain_consume t ht (' ' :: rest) [c] acc]
    rw [show shlexGo (' ' :: rest) (t.reverse ++ [c]) none true false acc =
        shlexGo rest [] none false false ((t.reverse ++ [c]).reverse :: acc) by
      simp [shlexGo, isShlexWs]]
    simp [List.reverse_append]

/-- A space-terminated sequence of nonempty plain words lexes to exactly
those words. -/
theorem shlexGo_words (ws : List (List Char))
    (h : ∀ w ∈ ws, w ≠ [] ∧ w.all shlexPlainChar = true) :
    ∀ acc, shlexGo (joinSp ws) [] none false false acc =
      some (acc.reverse ++ ws) := by
  induction ws with
  | nil =>
    intro acc
    simp [joinSp, shlexGo]
  | cons w rest ih =>
    intro acc
    obtain ⟨hne, hall⟩ := h w (List.mem_cons_self w rest)
    rw [show joinSp (w :: rest) = w ++ ' ' :: joinSp rest from rfl]
    rw [shlexGo_token w hne hall (joinSp rest) acc]
    rw [ih (fun m hm => h m (List.mem_cons_of_mem w hm)) (w :: acc)]
    simp

/-- Claim C10 (amended): a nonempty username with no shlex-whitespace,
quote or backslash character survives word splitting of the formatted
credentials command as the single argument right after the username flag,
while for example the username a-space-b is split into the two argument
tokens a and b. -/
theorem C10_username_splitting (u : String) (hne : u ≠ "")
    (hsafe : u.data.all shlexPlainChar = true) :
    shlexSplit (credentialsCommand "/bin/aws" "db2.example.com" 5432 u) =
      some ["/bin/aws", "rds", "generate-db-auth-token", "--hostname",
        "db2.example.com", "--port", "5432", "--username", u, "--region",
        "eu-central-1"] ∧
    shlexSplit (credentialsCommand "/bin/aws" "db2.example.com" 5432 "a b") =
      some ["/bin/aws", "rds", "generate-db-auth-token", "--hostname",
        "db2.example.com", "--port", "5432", "--username", "a", "b",
        "--region", "eu-central-1"] := by
  refine ⟨?_, by decide⟩
  have hdata : (credentialsCommand "/bin/aws" "db2.example.com" 5432 u).data =
      joinSp [("/bin/aws" : String).data, ("rds" : String).data,
        ("generate-db-auth-token" : String).data, ("--hostname" : String).data,
        ("db2.example.com" : String).data, ("--port" : String).data,
        ("5432" : String).data, ("--username" : String).data, u.data,
        ("--region" : String).data, ("eu-central-1" : String).data] := by
    cases u with
    | mk ud => rfl
  have hword : ∀ w ∈ [("/bin/aws" : String).data, ("rds" : String).data,
      ("generate-db-auth-token" : String).data, ("--hostname" : String).data,
      ("db2.example.com" : String).data, ("--port" : String).data,
      ("5432" : String).data, ("--username" : String).data, u.data,
      ("--region" : String).data, ("eu-central-1" : String).data],
      w ≠ [] ∧ w.all shlexPlainChar = true := by
    intro w hw
    simp only [List.mem_cons, List.not_mem_nil, or_false] at hw
    rcases hw with rfl | rfl | rfl | rfl | rfl | rfl | rfl | rfl | rfl | rfl | rfl
    · exact ⟨by decide, by decide⟩
    · exact ⟨by decide, by decide⟩
    · exact ⟨by decide, by decide⟩
    · exact ⟨by decide, by decide⟩
    · exact ⟨by decide, by decide⟩
    · exact ⟨by decide, by decide⟩
    · exact ⟨by decide, by decide⟩
    · exact ⟨by decide, by decide⟩
    · exact ⟨fun hnil => hne ((str_eq_empty_iff u).mpr hnil), hsafe⟩
    · exact ⟨by decide, by decide⟩
    · exact ⟨by decide, by decide⟩
  unfold shlexSplit
  rw [hdata, shlexGo_words _ hword []]
  simp [str_mk_data]

/-- Witness for C10 at the username alice. -/
theorem C10_witness :
    shlexSplit (credentialsCommand "/bin/aws" "db2.example.com" 5432 "alice") =
      some ["/bin/aws", "rds", "generate-db-auth-token", "--hostname",
        "db2.example.com", "--port", "5432", "--username", "alice", "--region",
        "eu-central-1"] ∧
    shlexSplit (credentialsCommand "/bin/aws" "db2.example.com" 5432 "a b") =
      some ["/bin/aws", "rds", "generate-db-auth-token", "--hostname",
        "db2.example.com", "--port", "5432", "--username", "a", "b",
        "--region", "eu-central-1"] :=
  C10_username_splitting "alice" (by decide) (by decide)

/-- Counterexample to C10 as stated: the username a-backslash-b contains
no whitespace and no quote character, yet the argument the subprocess
receives after the username flag is the two-letter word ab, not the
username (the backslash is consumed as the shlex escape character). -/
theorem C10_counterexample :
    ("a\\b" : String).data.all
      (fun c => !(pyIsSpace c) && !(c == '\'') && !(c == '\"')) = true ∧
    shlexSplit (credentialsCommand "/bin/aws" "db2.example.com" 5432 "a\\b") =
      some ["/bin/aws", "rds", "generate-db-auth-token", "--hostname",
        "db2.example.com", "--port", "5432", "--username", "ab", "--region",
        "eu-central-1"] ∧
    ("ab" : String) ≠ "a\\b" := by decide

end GetRds
